import Mathlib

/-!
Verification of the HeartGuard time-series aggregation and retention engine.

The JavaScript sources (storageService.js, healthService.js, the settings
screen CSV exporter) are shallowly embedded below.  JS numbers are modelled
as exact rationals; the one place where a NaN can arise in the original code
(the mean of an empty half in the trend computation, 0/0) is modelled with
an Option, where none stands for NaN and every comparison with none is
false, exactly as in JS.  Timestamps (epoch milliseconds) are integers.
The derived display-only ISO date string of a record is not modelled; it is
a pure formatting cache of the timestamp.
-/

/-- One heart-rate sample as persisted by storageService: a numeric value
and an epoch-millisecond timestamp. -/
structure HRRecord where
  value : ℚ
  timestamp : ℤ
deriving DecidableEq

/-- JS division for the trend averages: denominator 0 gives NaN (none).
In the source the only zero denominator is an empty half, whose sum is
also 0, hence 0/0 = NaN. -/
def jdiv (a b : ℚ) : Option ℚ :=
  if b = 0 then none else some (a / b)

/-- JS comparison x < y where either side may be NaN: any comparison with
NaN is false. -/
def nanLt (a b : Option ℚ) : Bool :=
  match a, b with
  | some x, some y => decide (x < y)
  | _, _ => false

/-- JS comparison x > y where either side may be NaN. -/
def nanGt (a b : Option ℚ) : Bool :=
  match a, b with
  | some x, some y => decide (x > y)
  | _, _ => false

/-- Adding a constant to a possibly-NaN number. -/
def nanAdd (a : Option ℚ) (c : ℚ) : Option ℚ :=
  a.map (fun x => x + c)

/-- Subtracting a constant from a possibly-NaN number. -/
def nanSub (a : Option ℚ) (c : ℚ) : Option ℚ :=
  a.map (fun x => x - c)

/-- JS Math.round on a non-NaN number: round half towards positive
infinity, that is floor(x + 1/2). -/
def jround (q : ℚ) : ℤ := ⌊q + 1 / 2⌋

/-- Math.round lifted to possibly-NaN input: Math.round(NaN) = NaN. -/
def nanRound (a : Option ℚ) : Option ℤ :=
  a.map jround

/-- JS Math.max spread over a nonempty array; the empty case (JS would
give -Infinity) is unreachable in the source and mapped to 0. -/
def listMax : List ℚ → ℚ
  | [] => 0
  | x :: xs => xs.foldl max x

/-- JS Math.min spread over a nonempty array. -/
def listMin : List ℚ → ℚ
  | [] => 0
  | x :: xs => xs.foldl min x

/-- The statistics object returned by getStatistics.  The firstAvg and
secondAvg fields are absent (outer none) on the empty-data early return and
otherwise hold Math.round of a possibly-NaN average (inner Option). -/
structure Stats where
  average : ℤ
  max : ℚ
  min : ℚ
  count : ℕ
  trend : String
  firstAvg : Option (Option ℤ)
  secondAvg : Option (Option ℤ)
deriving DecidableEq

/-- The body of storageService.getStatistics applied to the already
queried record list: the empty early return, average/max/min/count, and
the trend computation splitting the values at floor(n/2).  The two
sequential if statements of the source (trend starts as stable, is set to
rising, then possibly to falling) are equivalent to checking falling
first. -/
def statisticsOfData (data : List HRRecord) : Stats :=
  if data.length = 0 then
    { average := 0, max := 0, min := 0, count := 0, trend := "stable",
      firstAvg := none, secondAvg := none }
  else
    let values := data.map (fun r => r.value)
    let sum := values.foldl (fun acc val => acc + val) 0
    let average := jround (sum / (values.length : ℚ))
    let mx := listMax values
    let mn := listMin values
    let mid := values.length / 2
    let firstHalf := values.take mid
    let secondHalf := values.drop mid
    let firstAvg := jdiv (firstHalf.foldl (fun a b => a + b) 0) (firstHalf.length : ℚ)
    let secondAvg := jdiv (secondHalf.foldl (fun a b => a + b) 0) (secondHalf.length : ℚ)
    let trend :=
      if nanLt secondAvg (nanSub firstAvg 5) then "falling"
      else if nanGt secondAvg (nanAdd firstAvg 5) then "rising"
      else "stable"
    { average := average, max := mx, min := mn, count := data.length,
      trend := trend, firstAvg := some (nanRound firstAvg),
      secondAvg := some (nanRound secondAvg) }

/-- Modelled from the spec: the trend algorithm as worded in the spec,
with plain unrounded rational means of the two halves and the rising test
performed first.  Used to compare the source implementation against the
specification text. -/
def specTrendOf (values : List ℚ) : String :=
  let mid := values.length / 2
  let firstHalf := values.take mid
  let secondHalf := values.drop mid
  let firstAvg := (firstHalf.foldl (fun a b => a + b) 0) / (firstHalf.length : ℚ)
  let secondAvg := (secondHalf.foldl (fun a b => a + b) 0) / (secondHalf.length : ℚ)
  if secondAvg > firstAvg + 5 then "rising"
  else if secondAvg < firstAvg - 5 then "falling"
  else "stable"

/-- Observer for the trend computation of getStatistics: true when one of
the two mean divisions in the non-empty branch has a zero denominator
(an empty half), that is when the source evaluates 0/0. -/
def trendDivisionByZero (data : List HRRecord) : Bool :=
  if data.length = 0 then false
  else
    let values := data.map (fun r => r.value)
    let mid := values.length / 2
    decide ((values.take mid).length = 0) || decide ((values.drop mid).length = 0)

/-- Build a chronologically ordered sample list from a value list, with
consecutive timestamps starting at the given time. -/
def mkSamplesFrom : ℤ → List ℚ → List HRRecord
  | _, [] => []
  | t, v :: vs => { value := v, timestamp := t } :: mkSamplesFrom (t + 1) vs

/-- Sample list with timestamps 0, 1, 2, ... -/
def mkSamples (vals : List ℚ) : List HRRecord :=
  mkSamplesFrom 0 vals

example : (statisticsOfData (mkSamples [70, 70, 70, 70, 80, 80, 80, 80])).trend = "rising" := by
  norm_num [statisticsOfData, mkSamples, mkSamplesFrom, jdiv, nanLt, nanGt, nanAdd, nanSub]

example : (statisticsOfData (mkSamples [70, 70, 70, 70, 70, 70, 70, 70])).trend = "stable" := by
  norm_num [statisticsOfData, mkSamples, mkSamplesFrom, jdiv, nanLt, nanGt, nanAdd, nanSub]

example : (statisticsOfData (mkSamples [80, 80, 80, 80, 70, 70, 70, 70])).trend = "falling" := by
  norm_num [statisticsOfData, mkSamples, mkSamplesFrom, jdiv, nanLt, nanGt, nanAdd, nanSub]

example : (statisticsOfData (mkSamples [70])).trend = "stable" := by
  norm_num [statisticsOfData, mkSamples, mkSamplesFrom, jdiv, nanLt, nanGt, nanAdd, nanSub]

example : trendDivisionByZero (mkSamples [70]) = true := by
  norm_num [trendDivisionByZero, mkSamples, mkSamplesFrom]

example : (statisticsOfData (mkSamples [2 / 5])).average = 0 := by
  norm_num [statisticsOfData, mkSamples, mkSamplesFrom, jround, Int.floor_eq_iff]

example : (statisticsOfData (mkSamples [2 / 5])).min = 2 / 5 := by
  norm_num [statisticsOfData, mkSamples, mkSamplesFrom, listMin]

/-! ## Health service threshold evaluators (healthService.js) -/

/-- The threshold configuration held by the HealthService instance and
updatable through updateThresholds. -/
structure HSThresholds where
  minHeartRate : ℚ
  maxHeartRate : ℚ
  minBloodOxygen : ℚ
deriving DecidableEq

/-- The constructor defaults of HealthService.thresholds. -/
def defaultHSThresholds : HSThresholds :=
  { minHeartRate := 60, maxHeartRate := 100, minBloodOxygen := 95 }

/-- Status and severity of a threshold check.  The human-readable message
of the source is a presentation string interpolating the value and is not
modelled. -/
structure CheckResult where
  status : String
  severity : String
deriving DecidableEq

/-- healthService.checkHeartRateThreshold: classify a heart-rate reading
against the instance thresholds, with the age-based 220 - age ceiling for
the danger severity. -/
def checkHeartRateThreshold (t : HSThresholds) (heartRate : ℚ) (userAge : ℚ) : CheckResult :=
  if heartRate < t.minHeartRate then
    { status := "low", severity := "warning" }
  else if heartRate > t.maxHeartRate then
    let maxAllowed := 220 - userAge
    if heartRate > maxAllowed * (0.85 : ℚ) then
      { status := "high", severity := "danger" }
    else
      { status := "high", severity := "warning" }
  else
    { status := "normal", severity := "normal" }

/-- healthService.checkBloodOxygen: classify a blood-oxygen reading. -/
def checkBloodOxygen (t : HSThresholds) (bloodOxygen : ℚ) : CheckResult :=
  if bloodOxygen < t.minBloodOxygen then
    if bloodOxygen < 90 then
      { status := "critical", severity := "danger" }
    else
      { status := "low", severity := "warning" }
  else
    { status := "normal", severity := "normal" }

example : checkHeartRateThreshold defaultHSThresholds 105 30 =
    { status := "high", severity := "warning" } := by
  norm_num [checkHeartRateThreshold, defaultHSThresholds]

example : checkHeartRateThreshold defaultHSThresholds 165 30 =
    { status := "high", severity := "danger" } := by
  norm_num [checkHeartRateThreshold, defaultHSThresholds]

example : checkBloodOxygen { minHeartRate := 60, maxHeartRate := 100, minBloodOxygen := 80 } 85 =
    { status := "normal", severity := "normal" } := by
  norm_num [checkBloodOxygen]

example : checkBloodOxygen defaultHSThresholds 85 =
    { status := "critical", severity := "danger" } := by
  norm_num [checkBloodOxygen, defaultHSThresholds]

/-! ## Record store (storageService.js)

AsyncStorage is modelled as a key-indexed map of typed stored values
(each key of the source holds one JSON document of a fixed shape), plus
two failure flags describing whether the underlying storage raises on
read or on write.  The try/catch blocks of the source convert a raised
error into the documented safe default, which is what the flags model. -/

/-- The object passed by callers to saveHealthRecord: a composite sample
whose metric fields may each be absent, possibly already carrying a
timestamp field. -/
structure HealthRecordInput where
  heartRate : Option ℚ
  bloodOxygen : Option ℚ
  steps : Option ℚ
  calories : Option ℚ
  distance : Option ℚ
  timestamp : Option ℤ
deriving DecidableEq

/-- A persisted composite health record: the spread of the input object
with the timestamp field set by the save operation. -/
structure HealthRecord where
  heartRate : Option ℚ
  bloodOxygen : Option ℚ
  steps : Option ℚ
  calories : Option ℚ
  distance : Option ℚ
  timestamp : ℤ
deriving DecidableEq

/-- The persisted threshold settings document. -/
structure Thresholds where
  min : ℚ
  max : ℚ
  minBloodOxygen : ℚ
deriving DecidableEq

/-- The persisted user settings document. -/
structure UserSettings where
  notifications : Bool
  autoSave : Bool
  theme : String
deriving DecidableEq

/-- Container streams and settings objects, one constructor per key
shape. -/
inductive StoredValue where
  | heartRates : List HRRecord → StoredValue
  | healthRecords : List HealthRecord → StoredValue
  | thresholds : Thresholds → StoredValue
  | settings : UserSettings → StoredValue
deriving DecidableEq

/-- The AsyncStorage state visible to the service, plus flags saying
whether the underlying storage raises on reads or on writes. -/
structure Storage where
  kv : String → Option StoredValue
  readFails : Bool
  writeFails : Bool

namespace STORAGE_KEYS

def HEART_RATE_HISTORY : String := "@HeartGuard:heartRateHistory"

def HEALTH_RECORDS : String := "@HeartGuard:healthRecords"

def THRESHOLDS : String := "@HeartGuard:thresholds"

def USER_SETTINGS : String := "@HeartGuard:userSettings"

end STORAGE_KEYS

/-- Milliseconds in one day: 24 * 60 * 60 * 1000. -/
def dayMs : ℤ := 24 * 60 * 60 * 1000

/-- The retention window of the store: 30 days in milliseconds. -/
def thirtyDaysMs : ℤ := 30 * dayMs

/-- AsyncStorage.setItem on the modelled store (the success path). -/
def setKV (st : Storage) (key : String) (v : StoredValue) : Storage :=
  { st with kv := fun k => if k = key then some v else st.kv k }

/-- storageService.getHeartRateHistory: parse the stream under its key;
a raised storage error or a missing document gives the empty list. -/
def getHeartRateHistory (st : Storage) : List HRRecord :=
  if st.readFails then []
  else
    match st.kv STORAGE_KEYS.HEART_RATE_HISTORY with
    | some (StoredValue.heartRates l) => l
    | _ => []

/-- storageService.getHealthRecords. -/
def getHealthRecords (st : Storage) : List HealthRecord :=
  if st.readFails then []
  else
    match st.kv STORAGE_KEYS.HEALTH_RECORDS with
    | some (StoredValue.healthRecords l) => l
    | _ => []

/-- storageService.saveHeartRateRecord: build a record stamped with the
current time, push it onto the stored history, filter the whole stream to
the 30-day window, and persist; a write failure is caught and reported as
false with the store unchanged. -/
def saveHeartRateRecord (heartRate : ℚ) (now : ℤ) (st : Storage) : Bool × Storage :=
  let record : HRRecord := { value := heartRate, timestamp := now }
  let history := getHeartRateHistory st
  let pushed := history ++ [record]
  let thirtyDaysAgo := now - thirtyDaysMs
  let filtered := pushed.filter (fun r => decide (thirtyDaysAgo < r.timestamp))
  if st.writeFails then (false, st)
  else (true, setKV st STORAGE_KEYS.HEART_RATE_HISTORY (StoredValue.heartRates filtered))

/-- The full record persisted by saveHealthRecord: the spread of the
input with the timestamp field overwritten by the current time. -/
def fullRecordOf (record : HealthRecordInput) (now : ℤ) : HealthRecord :=
  { heartRate := record.heartRate, bloodOxygen := record.bloodOxygen,
    steps := record.steps, calories := record.calories,
    distance := record.distance, timestamp := now }

/-- storageService.saveHealthRecord. -/
def saveHealthRecord (record : HealthRecordInput) (now : ℤ) (st : Storage) : Bool × Storage :=
  let fullRecord := fullRecordOf record now
  let history := getHealthRecords st
  let pushed := history ++ [fullRecord]
  let thirtyDaysAgo := now - thirtyDaysMs
  let filtered := pushed.filter (fun r => decide (thirtyDaysAgo < r.timestamp))
  if st.writeFails then (false, st)
  else (true, setKV st STORAGE_KEYS.HEALTH_RECORDS (StoredValue.healthRecords filtered))

/-- storageService.getRecentData: the heart-rate history restricted to
the last so-many days from the query-time clock. -/
def getRecentData (days : ℤ) (now : ℤ) (st : Storage) : List HRRecord :=
  let history := getHeartRateHistory st
  let startDate := now - days * dayMs
  history.filter (fun r => decide (startDate < r.timestamp))

/-- storageService.getDataInRange: inclusive timestamp range query. -/
def getDataInRange (startDate endDate : ℤ) (st : Storage) : List HRRecord :=
  (getHeartRateHistory st).filter
    (fun r => decide (startDate ≤ r.timestamp) && decide (r.timestamp ≤ endDate))

/-- storageService.getThresholds, with the documented default object on a
missing document or a raised read error. -/
def getThresholds (st : Storage) : Thresholds :=
  if st.readFails then { min := 60, max := 100, minBloodOxygen := 95 }
  else
    match st.kv STORAGE_KEYS.THRESHOLDS with
    | some (StoredValue.thresholds t) => t
    | _ => { min := 60, max := 100, minBloodOxygen := 95 }

/-- storageService.getUserSettings, with its documented defaults. -/
def getUserSettings (st : Storage) : UserSettings :=
  if st.readFails then { notifications := true, autoSave := true, theme := "light" }
  else
    match st.kv STORAGE_KEYS.USER_SETTINGS with
    | some (StoredValue.settings s) => s
    | _ => { notifications := true, autoSave := true, theme := "light" }

/-- storageService.saveThresholds. -/
def saveThresholds (t : Thresholds) (st : Storage) : Bool × Storage :=
  if st.writeFails then (false, st)
  else (true, setKV st STORAGE_KEYS.THRESHOLDS (StoredValue.thresholds t))

/-- storageService.clearAllData: AsyncStorage.multiRemove of the two
stream keys only. -/
def clearAllData (st : Storage) : Bool × Storage :=
  if st.writeFails then (false, st)
  else
    (true,
      { st with kv := fun k =>
          if k ∈ [STORAGE_KEYS.HEART_RATE_HISTORY, STORAGE_KEYS.HEALTH_RECORDS] then none
          else st.kv k })

/-- storageService.getStatistics: statistics over the recent-data query. -/
def getStatistics (days : ℤ) (now : ℤ) (st : Storage) : Stats :=
  statisticsOfData (getRecentData days now st)

/-- The raw persisted heart-rate stream under its key, independent of the
read-failure flag: what is actually on disk. -/
def persistedHeartRates (st : Storage) : List HRRecord :=
  match st.kv STORAGE_KEYS.HEART_RATE_HISTORY with
  | some (StoredValue.heartRates l) => l
  | _ => []

/-- The raw persisted health-record stream under its key. -/
def persistedHealthRecords (st : Storage) : List HealthRecord :=
  match st.kv STORAGE_KEYS.HEALTH_RECORDS with
  | some (StoredValue.healthRecords l) => l
  | _ => []

/-! ## CSV export (settings screen, convertToCSV)

The locale date and time formatters of the source
(toLocaleDateString, toLocaleTimeString) are environment-dependent, so
they are passed as explicit string-valued functions of the timestamp.
The JS number-to-string interpolation of the value is toString. -/

/-- Array.prototype.join with the newline separator, as used by the
source on the mapped row array. -/
def joinRows : List String → String
  | [] => ""
  | [r] => r
  | r :: r2 :: rs => r ++ "\n" ++ joinRows (r2 :: rs)

/-- One CSV data row of convertToCSV. -/
def rowString (fmtDate fmtTime : ℤ → String) (r : HRRecord) : String :=
  fmtDate r.timestamp ++ "," ++ fmtTime r.timestamp ++ "," ++ toString r.value

/-- convertToCSV of the settings screen: the literal header line with a
trailing newline, then the data rows joined by newlines. -/
def convertToCSV (fmtDate fmtTime : ℤ → String) (data : List HRRecord) : String :=
  let header := "Date,Time,Heart Rate (BPM)\n"
  let rows := joinRows (data.map (rowString fmtDate fmtTime))
  header ++ rows

/-- The newline character. -/
def nlChar : Char := Char.ofNat 10

/-- Split a character list at every occurrence of the separator; the
model of splitting a CSV text into lines or a line into cells. -/
def splitSep (c : Char) : List Char → List (List Char)
  | [] => [[]]
  | x :: xs =>
    match splitSep c xs with
    | [] => [[]]
    | y :: ys => if x = c then [] :: y :: ys else (x :: y) :: ys

/-- The newline-separated lines of a string. -/
def csvLines (s : String) : List String :=
  (splitSep nlChar s.data).map String.mk

/-- The comma-separated cells of a line. -/
def csvCells (s : String) : List String :=
  (splitSep ',' s.data).map String.mk

example :
    csvLines (convertToCSV (fun _ => "1/1/2026") (fun _ => "9:00:00 AM") (mkSamples [72, 80])) =
      ["Date,Time,Heart Rate (BPM)", "1/1/2026,9:00:00 AM,72", "1/1/2026,9:00:00 AM,80"] := by
  rfl

example :
    csvCells "1/1/2026,9:00:00 AM,72" = ["1/1/2026", "9:00:00 AM", "72"] := by
  rfl

/-! ## Helper lemmas -/

/-- C1 helper: the statisticsOfData trend for two or more samples. -/
lemma statisticsOfData_trend_eq (data : List HRRecord) (h : 2 ≤ data.length) :
    (statisticsOfData data).trend = specTrendOf (data.map (fun r => r.value)) := by
  have h0 : ¬ data.length = 0 := by omega
  set values := data.map (fun r => r.value) with hv
  have hlen : values.length = data.length := by simp [hv]
  have hmid1 : 1 ≤ values.length / 2 := by omega
  have hmid2 : values.length / 2 < values.length := by omega
  have htake : (values.take (values.length / 2)).length = values.length / 2 := by
    simp [List.length_take]
    omega
  have hdrop : (values.drop (values.length / 2)).length = values.length - values.length / 2 := by
    simp [List.length_drop]
  have htake0 : ((values.take (values.length / 2)).length : ℚ) ≠ 0 := by
    rw [htake]
    exact_mod_cast Nat.one_le_iff_ne_zero.mp hmid1
  have hdrop0 : ((values.drop (values.length / 2)).length : ℚ) ≠ 0 := by
    rw [hdrop]
    have : values.length - values.length / 2 ≠ 0 := by omega
    exact_mod_cast this
  simp only [statisticsOfData, specTrendOf, h0, if_false, jdiv, htake0, hdrop0,
    nanLt, nanGt, nanSub, nanAdd, Option.map_some]
  set f := (values.take (values.length / 2)).foldl (fun a b => a + b) 0 /
      ((values.take (values.length / 2)).length : ℚ) with hf
  set s := (values.drop (values.length / 2)).foldl (fun a b => a + b) 0 /
      ((values.drop (values.length / 2)).length : ℚ) with hs
  by_cases h1 : s < f - 5 <;> by_cases h2 : s > f + 5
  · exfalso
    linarith
  · simp [h1, h2]
  · simp [h1, h2]
  · simp [h1, h2]

/-- The initial accumulator is below a left fold of max. -/
lemma le_foldl_max (l : List ℚ) : ∀ a : ℚ, a ≤ l.foldl max a := by
  induction l with
  | nil => intro a; simp
  | cons x xs ih =>
    intro a
    simpa using le_trans (le_max_left a x) (ih (max a x))

/-- Every member is below a left fold of max. -/
lemma mem_le_foldl_max (l : List ℚ) : ∀ (a v : ℚ), v ∈ l → v ≤ l.foldl max a := by
  induction l with
  | nil => intro a v hv; simp at hv
  | cons x xs ih =>
    intro a v hv
    rcases List.mem_cons.mp hv with rfl | hv
    · simpa using le_trans (le_max_right a v) (le_foldl_max xs (max a v))
    · simpa using ih (max a x) v hv

/-- A left fold of max is the accumulator or one of the members. -/
lemma foldl_max_mem (l : List ℚ) : ∀ a : ℚ, l.foldl max a ∈ a :: l := by
  induction l with
  | nil => intro a; simp
  | cons x xs ih =>
    intro a
    have h := ih (max a x)
    rcases List.mem_cons.mp h with heq | hmem
    · rcases max_choice a x with hax | hax
      · rw [List.foldl_cons, heq, hax]
        exact List.mem_cons_self _ _
      · rw [List.foldl_cons, heq, hax]
        exact List.mem_cons_of_mem _ (List.mem_cons_self _ _)
    · exact List.mem_cons_of_mem _ (List.mem_cons_of_mem _ (by simpa using hmem))

/-- The initial accumulator is above a left fold of min. -/
lemma foldl_min_le (l : List ℚ) : ∀ a : ℚ, l.foldl min a ≤ a := by
  induction l with
  | nil => intro a; simp
  | cons x xs ih =>
    intro a
    simpa using le_trans (ih (min a x)) (min_le_left a x)

/-- Every member is above a left fold of min. -/
lemma foldl_min_le_mem (l : List ℚ) : ∀ (a v : ℚ), v ∈ l → l.foldl min a ≤ v := by
  induction l with
  | nil => intro a v hv; simp at hv
  | cons x xs ih =>
    intro a v hv
    rcases List.mem_cons.mp hv with rfl | hv
    · simpa using le_trans (foldl_min_le xs (min a v)) (min_le_right a v)
    · simpa using ih (min a x) v hv

/-- A left fold of min is the accumulator or one of the members. -/
lemma foldl_min_mem (l : List ℚ) : ∀ a : ℚ, l.foldl min a ∈ a :: l := by
  induction l with
  | nil => intro a; simp
  | cons x xs ih =>
    intro a
    have h := ih (min a x)
    rcases List.mem_cons.mp h with heq | hmem
    · rcases min_choice a x with hax | hax
      · rw [List.foldl_cons, heq, hax]
        exact List.mem_cons_self _ _
      · rw [List.foldl_cons, heq, hax]
        exact List.mem_cons_of_mem _ (List.mem_cons_self _ _)
    · exact List.mem_cons_of_mem _ (List.mem_cons_of_mem _ (by simpa using hmem))

/-- Every member is at most listMax. -/
lemma mem_le_listMax {v : ℚ} {l : List ℚ} (h : v ∈ l) : v ≤ listMax l := by
  cases l with
  | nil => simp at h
  | cons x xs =>
    rcases List.mem_cons.mp h with rfl | h
    · exact le_foldl_max xs v
    · exact mem_le_foldl_max xs x v h

/-- listMin is at most every member. -/
lemma listMin_le_mem {v : ℚ} {l : List ℚ} (h : v ∈ l) : listMin l ≤ v := by
  cases l with
  | nil => simp at h
  | cons x xs =>
    rcases List.mem_cons.mp h with rfl | h
    · exact foldl_min_le xs v
    · exact foldl_min_le_mem xs x v h

/-- On a nonempty list listMax is one of the members. -/
lemma listMax_mem {l : List ℚ} (h : l ≠ []) : listMax l ∈ l := by
  cases l with
  | nil => exact absurd rfl h
  | cons x xs => exact foldl_max_mem xs x

/-- On a nonempty list listMin is one of the members. -/
lemma listMin_mem {l : List ℚ} (h : l ≠ []) : listMin l ∈ l := by
  cases l with
  | nil => exact absurd rfl h
  | cons x xs => exact foldl_min_mem xs x

/-- The fold of the source is List.sum. -/
lemma foldl_add_eq_sum (l : List ℚ) : l.foldl (fun a b => a + b) 0 = l.sum := by
  rw [List.sum_eq_foldl]

/-- The mean of a nonempty list lies between listMin and listMax. -/
lemma mean_between (l : List ℚ) (h : l ≠ []) :
    listMin l ≤ l.sum / (l.length : ℚ) ∧ l.sum / (l.length : ℚ) ≤ listMax l := by
  have hlen : 0 < (l.length : ℚ) := by
    have : 0 < l.length := List.length_pos.mpr h
    exact_mod_cast this
  constructor
  · rw [le_div_iff₀ hlen]
    have := List.card_nsmul_le_sum l (listMin l) (fun x hx => listMin_le_mem hx)
    rw [nsmul_eq_mul] at this
    calc listMin l * (l.length : ℚ) = (l.length : ℚ) * listMin l := by ring
    _ ≤ l.sum := this
  · rw [div_le_iff₀ hlen]
    have := List.sum_le_card_nsmul l (listMax l) (fun x hx => mem_le_listMax hx)
    rw [nsmul_eq_mul] at this
    calc l.sum ≤ (l.length : ℚ) * listMax l := this
    _ = listMax l * (l.length : ℚ) := by ring

/-! ## Claim theorems -/

/-- C1: for every list of at least two samples the trend returned by
getStatistics is the spec algorithm: split the value sequence at index
floor(n/2), take the unrounded mean of each half, and classify rising,
falling or stable with the fixed gap 5; the three sample sequences of the
spec classify as rising, stable and falling respectively. -/
theorem getStatistics_trend_matches_spec :
    (∀ data : List HRRecord, 2 ≤ data.length →
        (statisticsOfData data).trend = specTrendOf (data.map (fun r => r.value))) ∧
    (statisticsOfData (mkSamples [70, 70, 70, 70, 80, 80, 80, 80])).trend = "rising" ∧
    (statisticsOfData (mkSamples [70, 70, 70, 70, 70, 70, 70, 70])).trend = "stable" ∧
    (statisticsOfData (mkSamples [80, 80, 80, 80, 70, 70, 70, 70])).trend = "falling" := by
  refine ⟨statisticsOfData_trend_eq, ?_, ?_, ?_⟩
  · norm_num [statisticsOfData, mkSamples, mkSamplesFrom, jdiv, nanLt, nanGt, nanAdd, nanSub]
  · norm_num [statisticsOfData, mkSamples, mkSamplesFrom, jdiv, nanLt, nanGt, nanAdd, nanSub]
  · norm_num [statisticsOfData, mkSamples, mkSamplesFrom, jdiv, nanLt, nanGt, nanAdd, nanSub]

/-- C1 witness: the general trend statement applied to the concrete
eight-sample rising sequence. -/
theorem getStatistics_trend_matches_spec_witness :
    (statisticsOfData (mkSamples [70, 70, 70, 70, 80, 80, 80, 80])).trend =
      specTrendOf ((mkSamples [70, 70, 70, 70, 80, 80, 80, 80]).map (fun r => r.value)) :=
  getStatistics_trend_matches_spec.1 (mkSamples [70, 70, 70, 70, 80, 80, 80, 80])
    (by norm_num [mkSamples, mkSamplesFrom])

/-- C3 counterexample: for the single sample with the numeric value 2/5
the returned average, Math.round of the mean, is 0, which lies strictly
below the returned min 2/5, so min ≤ average fails for general numeric
values. -/
theorem statistics_min_le_average_counterexample :
    ¬ ((statisticsOfData (mkSamples [2 / 5])).min ≤
        ((statisticsOfData (mkSamples [2 / 5])).average : ℚ)) := by
  have havg : (statisticsOfData (mkSamples [2 / 5])).average = 0 := by
    norm_num [statisticsOfData, mkSamples, mkSamplesFrom, jround, Int.floor_eq_iff]
  have hmin : (statisticsOfData (mkSamples [2 / 5])).min = 2 / 5 := by
    norm_num [statisticsOfData, mkSamples, mkSamplesFrom, listMin]
  rw [havg, hmin]
  norm_num

/-- C3 (amended): for every non-empty sample list whose values are all
integers, the statistics satisfy min ≤ average ≤ max, where average is
Math.round of the mean and min and max range over the whole value set. -/
theorem statistics_min_le_average_le_max (data : List HRRecord) (hne : data ≠ [])
    (hint : ∀ r ∈ data, ∃ k : ℤ, r.value = (k : ℚ)) :
    (statisticsOfData data).min ≤ ((statisticsOfData data).average : ℚ) ∧
    ((statisticsOfData data).average : ℚ) ≤ (statisticsOfData data).max := by
  have h0 : ¬ data.length = 0 := fun h => hne (List.length_eq_zero.mp h)
  set values := data.map (fun r => r.value) with hv
  have hvne : values ≠ [] := by
    simpa [hv] using hne
  have havg : (statisticsOfData data).average =
      jround (values.sum / (values.length : ℚ)) := by
    simp only [statisticsOfData, h0, if_false, foldl_add_eq_sum]
  have hmax : (statisticsOfData data).max = listMax values := by
    simp only [statisticsOfData, h0, if_false]
  have hmin : (statisticsOfData data).min = listMin values := by
    simp only [statisticsOfData, h0, if_false]
  obtain ⟨hlow, hhigh⟩ := mean_between values hvne
  obtain ⟨kmin, hkmin⟩ : ∃ k : ℤ, listMin values = (k : ℚ) := by
    have hm := listMin_mem hvne
    rw [hv] at hm
    obtain ⟨r, hr, hrv⟩ := List.mem_map.mp hm
    obtain ⟨k, hk⟩ := hint r hr
    exact ⟨k, by rw [← hrv, hk]⟩
  obtain ⟨kmax, hkmax⟩ : ∃ k : ℤ, listMax values = (k : ℚ) := by
    have hm := listMax_mem hvne
    rw [hv] at hm
    obtain ⟨r, hr, hrv⟩ := List.mem_map.mp hm
    obtain ⟨k, hk⟩ := hint r hr
    exact ⟨k, by rw [← hrv, hk]⟩
  set mean := values.sum / (values.length : ℚ) with hmean
  constructor
  · rw [hmin, havg, hkmin]
    have hfloor : kmin ≤ jround mean := by
      rw [jround]
      apply Int.le_floor.mpr
      have : (kmin : ℚ) ≤ mean := by rw [← hkmin]; exact hlow
      linarith
    exact_mod_cast hfloor
  · rw [hmax, havg, hkmax]
    have hfloor : jround mean ≤ kmax := by
      rw [jround]
      have h1 : (⌊mean + 1 / 2⌋ : ℚ) ≤ mean + 1 / 2 := Int.floor_le _
      have h2 : mean ≤ (kmax : ℚ) := by rw [← hkmax]; exact hhigh
      have h3 : (⌊mean + 1 / 2⌋ : ℚ) < (kmax : ℚ) + 1 := by linarith
      have h4 : ⌊mean + 1 / 2⌋ < kmax + 1 := by exact_mod_cast h3
      omega
    exact_mod_cast hfloor

/-- C3 witness: the amended statement applied to the two integer samples
70 and 80. -/
theorem statistics_min_le_average_le_max_witness :
    (statisticsOfData (mkSamples [70, 80])).min ≤
      ((statisticsOfData (mkSamples [70, 80])).average : ℚ) ∧
    ((statisticsOfData (mkSamples [70, 80])).average : ℚ) ≤
      (statisticsOfData (mkSamples [70, 80])).max :=
  statistics_min_le_average_le_max (mkSamples [70, 80])
    (by simp [mkSamples, mkSamplesFrom])
    (by
      intro r hr
      simp only [mkSamples, mkSamplesFrom, List.mem_cons, List.not_mem_nil, or_false] at hr
      rcases hr with rfl | rfl
      · exact ⟨70, by norm_num⟩
      · exact ⟨80, by norm_num⟩)

/-- C4 counterexample: on a single-sample input the trend computation of
getStatistics does perform a division with a zero denominator (the mean
of the empty first half, 0/0): nothing in the source special-cases the
empty half. -/
theorem single_sample_division_by_zero :
    trendDivisionByZero (mkSamples [70]) = true := by
  norm_num [trendDivisionByZero, mkSamples, mkSamplesFrom]

/-- C4 (amended): for every single-sample input the mean of the empty
first half is the JS expression 0/0, evaluating to NaN rather than
raising; every comparison with NaN is false, so the returned trend is
stable unconditionally. -/
theorem single_sample_trend_stable (v : ℚ) (t : ℤ) :
    (statisticsOfData [{ value := v, timestamp := t }]).trend = "stable" ∧
    trendDivisionByZero [{ value := v, timestamp := t }] = true := by
  constructor
  · norm_num [statisticsOfData, jdiv, nanLt, nanGt, nanAdd, nanSub]
  · norm_num [trendDivisionByZero]

/-- C5: for every reading above the configured maximum (the thresholds
satisfying their documented invariant min < max), the heart-rate
evaluator computes maxAllowed = 220 - age and classifies danger above
0.85 * maxAllowed and warning otherwise, both with status high. -/
theorem checkHeartRateThreshold_high (t : HSThresholds) (age v : ℚ)
    (hinv : t.minHeartRate < t.maxHeartRate)
    (hhigh : v > t.maxHeartRate) :
    (v > (0.85 : ℚ) * (220 - age) →
      checkHeartRateThreshold t v age = { status := "high", severity := "danger" }) ∧
    (¬ v > (0.85 : ℚ) * (220 - age) →
      checkHeartRateThreshold t v age = { status := "high", severity := "warning" }) := by
  have hlow : ¬ v < t.minHeartRate := by linarith
  constructor
  · intro h
    rw [mul_comm] at h
    simp [checkHeartRateThreshold, hlow, hhigh, h]
  · intro h
    rw [mul_comm] at h
    simp [checkHeartRateThreshold, hlow, hhigh, h]

/-- C5 witness: under the default thresholds and age 30, the reading 105
gives high warning and the reading 165 gives high danger. -/
theorem checkHeartRateThreshold_high_witness :
    checkHeartRateThreshold defaultHSThresholds 105 30 =
      { status := "high", severity := "warning" } ∧
    checkHeartRateThreshold defaultHSThresholds 165 30 =
      { status := "high", severity := "danger" } :=
  ⟨(checkHeartRateThreshold_high defaultHSThresholds 30 105
      (by norm_num [defaultHSThresholds]) (by norm_num [defaultHSThresholds])).2
      (by norm_num),
   (checkHeartRateThreshold_high defaultHSThresholds 30 165
      (by norm_num [defaultHSThresholds]) (by norm_num [defaultHSThresholds])).1
      (by norm_num)⟩

/-- C6 counterexample: with the thresholds configuration whose
minBloodOxygen is 80, the reading 85 is below 90 yet the evaluator
returns normal, not critical: the outer guard compares against
minBloodOxygen first. -/
theorem checkBloodOxygen_counterexample :
    (85 : ℚ) < 90 ∧
    checkBloodOxygen { minHeartRate := 60, maxHeartRate := 100, minBloodOxygen := 80 } 85 =
      { status := "normal", severity := "normal" } := by
  constructor
  · norm_num
  · norm_num [checkBloodOxygen]

/-- C6 (amended): for every reading below thresholds.minBloodOxygen the
evaluator returns critical danger when the reading is also below 90 and
low warning when it is at least 90; readings of 90 or more that reach
minBloodOxygen are outside the low branch entirely.  Under the default
configuration (minBloodOxygen = 95) every reading below 90 is therefore
critical. -/
theorem checkBloodOxygen_classification (t : HSThresholds) (v : ℚ)
    (hlt : v < t.minBloodOxygen) :
    (v < 90 → checkBloodOxygen t v = { status := "critical", severity := "danger" }) ∧
    (90 ≤ v → checkBloodOxygen t v = { status := "low", severity := "warning" }) := by
  constructor
  · intro h
    simp [checkBloodOxygen, hlt, h]
  · intro h
    have h2 : ¬ v < 90 := not_lt.mpr h
    simp [checkBloodOxygen, hlt, h2]

/-- C6 witness: under the default thresholds, 85 classifies as critical
danger and 92 as low warning. -/
theorem checkBloodOxygen_classification_witness :
    checkBloodOxygen defaultHSThresholds 85 = { status := "critical", severity := "danger" } ∧
    checkBloodOxygen defaultHSThresholds 92 = { status := "low", severity := "warning" } :=
  ⟨(checkBloodOxygen_classification defaultHSThresholds 85
      (by norm_num [defaultHSThresholds])).1 (by norm_num),
   (checkBloodOxygen_classification defaultHSThresholds 92
      (by norm_num [defaultHSThresholds])).2 (by norm_num)⟩

/-- An empty storage with working reads and writes, for witnesses. -/
def demoStorage : Storage :=
  { kv := fun _ => none, readFails := false, writeFails := false }

/-- A composite record input carrying its own timestamp field, for
witnesses. -/
def demoInput : HealthRecordInput :=
  { heartRate := some 70, bloodOxygen := some 98, steps := none,
    calories := none, distance := none, timestamp := some 5 }

/-- C2: after every completed save, the persisted stream holds only
samples whose timestamp is strictly within the 30-day window ending at
the save-time clock; a sample stamped 31 days ago is absent, and every
subsequent recent-data query on the saved state also returns only
in-window samples. -/
theorem retention_after_save (heartRate : ℚ) (inp : HealthRecordInput) (now : ℤ)
    (st : Storage)
    (h1 : (saveHeartRateRecord heartRate now st).1 = true)
    (h2 : (saveHealthRecord inp now st).1 = true) :
    (∀ r ∈ persistedHeartRates (saveHeartRateRecord heartRate now st).2,
        now - thirtyDaysMs < r.timestamp) ∧
    (∀ r ∈ persistedHealthRecords (saveHealthRecord inp now st).2,
        now - thirtyDaysMs < r.timestamp) ∧
    (∀ r ∈ persistedHeartRates (saveHeartRateRecord heartRate now st).2,
        r.timestamp ≠ now - 31 * dayMs) ∧
    (∀ r ∈ persistedHealthRecords (saveHealthRecord inp now st).2,
        r.timestamp ≠ now - 31 * dayMs) ∧
    (∀ days now2 : ℤ, ∀ r ∈ getRecentData days now2 (saveHeartRateRecord heartRate now st).2,
        now - thirtyDaysMs < r.timestamp) := by
  cases hw : st.writeFails with
  | true => simp [saveHeartRateRecord, hw] at h1
  | false =>
    have hstream : persistedHeartRates (saveHeartRateRecord heartRate now st).2 =
        (getHeartRateHistory st ++ [HRRecord.mk heartRate now]).filter
          (fun r => decide (now - thirtyDaysMs < r.timestamp)) := by
      simp [saveHeartRateRecord, hw, setKV, persistedHeartRates]
    have hhstream : persistedHealthRecords (saveHealthRecord inp now st).2 =
        (getHealthRecords st ++ [fullRecordOf inp now]).filter
          (fun r => decide (now - thirtyDaysMs < r.timestamp)) := by
      simp [saveHealthRecord, hw, setKV, persistedHealthRecords]
    have hboundHR : ∀ r ∈ persistedHeartRates (saveHeartRateRecord heartRate now st).2,
        now - thirtyDaysMs < r.timestamp := by
      rw [hstream]
      intro r hr
      have := (List.mem_filter.mp hr).2
      simpa using this
    have hboundH : ∀ r ∈ persistedHealthRecords (saveHealthRecord inp now st).2,
        now - thirtyDaysMs < r.timestamp := by
      rw [hhstream]
      intro r hr
      have := (List.mem_filter.mp hr).2
      simpa using this
    have hwin : now - 31 * dayMs < now - thirtyDaysMs := by
      norm_num [thirtyDaysMs, dayMs]
    refine ⟨hboundHR, hboundH, ?_, ?_, ?_⟩
    · intro r hr
      have := hboundHR r hr
      omega
    · intro r hr
      have := hboundH r hr
      omega
    · intro days now2 r hr
      apply hboundHR
      rw [hstream]
      have hr2 : r ∈ getHeartRateHistory (saveHeartRateRecord heartRate now st).2 :=
        List.mem_of_mem_filter hr
      have hget : getHeartRateHistory (saveHeartRateRecord heartRate now st).2 =
          if st.readFails then []
          else (getHeartRateHistory st ++ [HRRecord.mk heartRate now]).filter
            (fun r => decide (now - thirtyDaysMs < r.timestamp)) := by
        cases hrf : st.readFails with
        | true => simp [saveHeartRateRecord, hw, setKV, getHeartRateHistory, hrf]
        | false => simp [saveHeartRateRecord, hw, setKV, getHeartRateHistory, hrf]
      rw [hget] at hr2
      cases hrf : st.readFails with
      | true => rw [hrf] at hr2; simp at hr2
      | false => rw [hrf] at hr2; simpa [hstream] using hr2

/-- C2 witness: saving the reading 72 at clock 0 into an empty storage
persists a record inside the retention window. -/
theorem retention_after_save_witness :
    (0 : ℤ) - thirtyDaysMs < (HRRecord.mk 72 0).timestamp :=
  (retention_after_save 72 demoInput 0 demoStorage
      (by simp [saveHeartRateRecord, demoStorage])
      (by simp [saveHealthRecord, demoStorage])).1
    (HRRecord.mk 72 0)
    (by
      have h : persistedHeartRates (saveHeartRateRecord 72 0 demoStorage).2 =
          [{ value := 72, timestamp := 0 }] := by
        norm_num [saveHeartRateRecord, demoStorage, getHeartRateHistory, setKV,
          persistedHeartRates, thirtyDaysMs, dayMs, List.filter]
      rw [h]
      exact List.mem_cons_self _ _)

/-- C7 counterexample: saving a record whose timestamp field is already
set to 5 at clock 1000 persists the record with timestamp 1000: the
spread is overwritten by the save-time clock, so the caller-supplied
timestamp is never kept. -/
theorem save_overwrites_timestamp_counterexample :
    demoInput.timestamp = some 5 ∧
    (persistedHealthRecords (saveHealthRecord demoInput 1000 demoStorage).2).map
        HealthRecord.timestamp = [1000] := by
  constructor
  · rfl
  · norm_num [saveHealthRecord, demoStorage, demoInput, getHealthRecords, setKV,
      persistedHealthRecords, fullRecordOf, thirtyDaysMs, dayMs, List.filter]

/-- C7 (amended): both save operations unconditionally stamp the stored
record with the save-time clock; any record in the persisted stream of a
completed save that is not carried over from the prior history has
timestamp now, whatever timestamp the caller supplied. -/
theorem save_assigns_current_time (inp : HealthRecordInput) (heartRate : ℚ) (now : ℤ)
    (st : Storage)
    (h1 : (saveHealthRecord inp now st).1 = true)
    (h2 : (saveHeartRateRecord heartRate now st).1 = true) :
    (fullRecordOf inp now).timestamp = now ∧
    (∀ r ∈ persistedHealthRecords (saveHealthRecord inp now st).2,
        r ∉ getHealthRecords st → r.timestamp = now) ∧
    (∀ r ∈ persistedHeartRates (saveHeartRateRecord heartRate now st).2,
        r ∉ getHeartRateHistory st → r.timestamp = now) := by
  cases hw : st.writeFails with
  | true => simp [saveHealthRecord, hw] at h1
  | false =>
    refine ⟨rfl, ?_, ?_⟩
    · intro r hr hnot
      have hstream : persistedHealthRecords (saveHealthRecord inp now st).2 =
          (getHealthRecords st ++ [fullRecordOf inp now]).filter
            (fun r => decide (now - thirtyDaysMs < r.timestamp)) := by
        simp [saveHealthRecord, hw, setKV, persistedHealthRecords]
      rw [hstream] at hr
      have hmem := List.mem_of_mem_filter hr
      rcases List.mem_append.mp hmem with hold | hnew
      · exact absurd hold hnot
      · simp only [List.mem_singleton] at hnew
        rw [hnew]
        rfl
    · intro r hr hnot
      have hstream : persistedHeartRates (saveHeartRateRecord heartRate now st).2 =
          (getHeartRateHistory st ++ [HRRecord.mk heartRate now]).filter
            (fun r => decide (now - thirtyDaysMs < r.timestamp)) := by
        simp [saveHeartRateRecord, hw, setKV, persistedHeartRates]
      rw [hstream] at hr
      have hmem := List.mem_of_mem_filter hr
      rcases List.mem_append.mp hmem with hold | hnew
      · exact absurd hold hnot
      · simp only [List.mem_singleton] at hnew
        rw [hnew]

/-- C7 witness: the amended statement applied to the demo record input:
the record stored at clock 1000 carries timestamp 1000. -/
theorem save_assigns_current_time_witness :
    (fullRecordOf demoInput 1000).timestamp = 1000 :=
  (save_assigns_current_time demoInput 72 1000 demoStorage
      (by simp [saveHealthRecord, demoStorage])
      (by simp [saveHeartRateRecord, demoStorage])).1

/-- A storage whose underlying reads and writes both raise, for
witnesses. -/
def failingStorage : Storage :=
  { kv := fun _ => none, readFails := true, writeFails := true }

/-- C8: when the underlying storage write raises, both save operations
catch the error and return the boolean failure indicator false, leaving
the store unchanged; when the underlying read raises, both history
queries catch the error and return the safe default empty list.  No
persistence failure escapes as an exception: the operations are total. -/
theorem storage_failures_degrade_to_defaults (st : Storage) (heartRate : ℚ)
    (inp : HealthRecordInput) (now : ℤ) :
    (st.writeFails = true →
      (saveHeartRateRecord heartRate now st).1 = false ∧
      (saveHealthRecord inp now st).1 = false ∧
      (saveHeartRateRecord heartRate now st).2 = st ∧
      (saveHealthRecord inp now st).2 = st) ∧
    (st.readFails = true →
      getHeartRateHistory st = [] ∧
      getHealthRecords st = [] ∧
      getRecentData 7 now st = []) := by
  constructor
  · intro hw
    refine ⟨?_, ?_, ?_, ?_⟩ <;> simp [saveHeartRateRecord, saveHealthRecord, hw]
  · intro hr
    refine ⟨?_, ?_, ?_⟩ <;>
      simp [getHeartRateHistory, getHealthRecords, getRecentData, hr]

/-- C8 witness: on the all-failing storage the save reports false and
the history query returns the empty list. -/
theorem storage_failures_degrade_to_defaults_witness :
    (saveHeartRateRecord 70 0 failingStorage).1 = false ∧
    getHeartRateHistory failingStorage = [] :=
  ⟨((storage_failures_degrade_to_defaults failingStorage 70 demoInput 0).1 rfl).1,
   ((storage_failures_degrade_to_defaults failingStorage 70 demoInput 0).2 rfl).1⟩

/-- C10: clearAllData removes exactly the two stream keys, so the
persisted thresholds and user settings documents are untouched:
getThresholds and getUserSettings return the same values after a
completed clear as before it, while both streams become empty. -/
theorem clearAllData_frame (st : Storage) :
    getThresholds (clearAllData st).2 = getThresholds st ∧
    getUserSettings (clearAllData st).2 = getUserSettings st ∧
    ((clearAllData st).1 = true →
      persistedHeartRates (clearAllData st).2 = [] ∧
      persistedHealthRecords (clearAllData st).2 = []) := by
  cases hw : st.writeFails with
  | true =>
    refine ⟨?_, ?_, ?_⟩
    · simp [clearAllData, hw]
    · simp [clearAllData, hw]
    · intro h
      simp [clearAllData, hw] at h
  | false =>
    refine ⟨?_, ?_, ?_⟩
    · simp [clearAllData, hw, getThresholds, STORAGE_KEYS.THRESHOLDS,
        STORAGE_KEYS.HEART_RATE_HISTORY, STORAGE_KEYS.HEALTH_RECORDS]
    · simp [clearAllData, hw, getUserSettings, STORAGE_KEYS.USER_SETTINGS,
        STORAGE_KEYS.HEART_RATE_HISTORY, STORAGE_KEYS.HEALTH_RECORDS]
    · intro _
      constructor
      · simp [clearAllData, hw, persistedHeartRates]
      · simp [clearAllData, hw, persistedHealthRecords]

/-- C10 witness: clearing the demo storage empties the heart-rate stream
and leaves getThresholds unchanged. -/
theorem clearAllData_frame_witness :
    getThresholds (clearAllData demoStorage).2 = getThresholds demoStorage ∧
    persistedHeartRates (clearAllData demoStorage).2 = [] :=
  ⟨(clearAllData_frame demoStorage).1,
   ((clearAllData_frame demoStorage).2.2 rfl).1⟩

/-! ## CSV lemmas -/

/-- String append acts as list append on the character data. -/
lemma strData_append (a b : String) : (a ++ b).data = a.data ++ b.data := by
  cases a
  cases b
  rfl

/-- Rebuilding a string from its character data is the identity. -/
lemma strMk_data (s : String) : String.mk s.data = s := by
  cases s
  rfl

/-- splitSep never returns the empty list of parts. -/
lemma splitSep_ne_nil (c : Char) (l : List Char) : splitSep c l ≠ [] := by
  induction l with
  | nil => simp [splitSep]
  | cons x xs ih =>
    simp only [splitSep]
    cases hs : splitSep c xs with
    | nil => simp
    | cons y ys =>
      dsimp only
      split <;> simp

/-- Splitting a separator-free character list gives that single part. -/
lemma splitSep_eq_of_not_mem (c : Char) (l : List Char) (h : c ∉ l) :
    splitSep c l = [l] := by
  induction l with
  | nil => rfl
  | cons x xs ih =>
    rw [List.mem_cons, not_or] at h
    have h1 : ¬ x = c := fun e => h.1 e.symm
    simp [splitSep, ih h.2, h1]

/-- Splitting at the first separator occurrence peels off the leading
separator-free part. -/
lemma splitSep_append_cons (c : Char) (l1 l2 : List Char) (h : c ∉ l1) :
    splitSep c (l1 ++ c :: l2) = l1 :: splitSep c l2 := by
  induction l1 with
  | nil =>
    cases hs : splitSep c l2 with
    | nil => exact absurd hs (splitSep_ne_nil c l2)
    | cons y ys => simp [splitSep, hs]
  | cons x xs ih =>
    rw [List.mem_cons, not_or] at h
    have h1 : ¬ x = c := fun e => h.1 e.symm
    simp [splitSep, ih h.2, h1]

/-- Splitting a newline join of newline-free rows recovers the rows. -/
lemma splitSep_joinRows (rows : List String) (hne : rows ≠ [])
    (h : ∀ r ∈ rows, nlChar ∉ r.data) :
    splitSep nlChar (joinRows rows).data = rows.map String.data := by
  induction rows with
  | nil => exact absurd rfl hne
  | cons r rest ih =>
    cases rest with
    | nil =>
      have hr : nlChar ∉ r.data := h r (List.mem_cons_self _ _)
      simp only [joinRows, List.map]
      exact splitSep_eq_of_not_mem nlChar r.data hr
    | cons r2 rest2 =>
      have hr : nlChar ∉ r.data := h r (List.mem_cons_self _ _)
      have hrest : ∀ s ∈ r2 :: rest2, nlChar ∉ s.data :=
        fun s hs => h s (List.mem_cons_of_mem _ hs)
      have hdata : (joinRows (r :: r2 :: rest2)).data =
          r.data ++ nlChar :: (joinRows (r2 :: rest2)).data := by
        simp only [joinRows, strData_append, List.append_assoc]
        rfl
      rw [hdata, splitSep_append_cons nlChar r.data _ hr,
        ih (by simp) hrest]
      rfl

/-- A fixed demo date formatter for the CSV witness. -/
def demoFmtDate : ℤ → String := fun _ => "10/11/2026"

/-- A fixed demo time formatter for the CSV witness. -/
def demoFmtTime : ℤ → String := fun _ => "9:00:00 AM"

/-- Two demo samples for the CSV witness. -/
def demoCSVData : List HRRecord := mkSamples [72, 80]

/-- C9: for every non-empty sample list whose formatted date, time and
value strings are free of commas and newlines (as the locale date and
time formats and JS numeral strings are), the CSV export consists of the
header line followed by one row per sample in input order, hence exactly
N + 1 newline-separated lines, and splitting any row at its commas
recovers the (date, time, value) triple of that sample. -/
theorem convertToCSV_roundtrip (fmtDate fmtTime : ℤ → String) (data : List HRRecord)
    (hne : data ≠ [])
    (hok : ∀ r ∈ data,
      (',' ∉ (fmtDate r.timestamp).data) ∧ (nlChar ∉ (fmtDate r.timestamp).data) ∧
      (',' ∉ (fmtTime r.timestamp).data) ∧ (nlChar ∉ (fmtTime r.timestamp).data) ∧
      (',' ∉ (toString r.value).data) ∧ (nlChar ∉ (toString r.value).data)) :
    csvLines (convertToCSV fmtDate fmtTime data) =
      "Date,Time,Heart Rate (BPM)" :: data.map (rowString fmtDate fmtTime) ∧
    (csvLines (convertToCSV fmtDate fmtTime data)).length = data.length + 1 ∧
    (∀ r ∈ data, csvCells (rowString fmtDate fmtTime r) =
      [fmtDate r.timestamp, fmtTime r.timestamp, toString r.value]) := by
  set rows := data.map (rowString fmtDate fmtTime) with hrows
  have hrowsne : rows ≠ [] := by
    simpa [hrows] using hne
  have hcomma : ¬ (nlChar = ',') := by decide
  have hrownl : ∀ s ∈ rows, nlChar ∉ s.data := by
    intro s hs
    rw [hrows] at hs
    obtain ⟨r, hr, rfl⟩ := List.mem_map.mp hs
    obtain ⟨h1, h2, h3, h4, h5, h6⟩ := hok r hr
    simp [rowString, strData_append, List.mem_append, h2, h4, h6, hcomma]
  have hcsv : (convertToCSV fmtDate fmtTime data).data =
      ("Date,Time,Heart Rate (BPM)" : String).data ++ nlChar :: (joinRows rows).data := by
    simp only [convertToCSV, strData_append, hrows]
    rfl
  have hhdr : nlChar ∉ ("Date,Time,Heart Rate (BPM)" : String).data := by decide
  have hlines : csvLines (convertToCSV fmtDate fmtTime data) =
      "Date,Time,Heart Rate (BPM)" :: rows := by
    rw [csvLines, hcsv, splitSep_append_cons nlChar _ _ hhdr,
      splitSep_joinRows rows hrowsne hrownl]
    simp only [List.map_cons, List.map_map, strMk_data]
    rw [show String.mk ∘ String.data = id from funext strMk_data, List.map_id]
  refine ⟨hlines, ?_, ?_⟩
  · rw [hlines]
    simp [hrows]
  · intro r hr
    obtain ⟨h1, h2, h3, h4, h5, h6⟩ := hok r hr
    have hrowdata : (rowString fmtDate fmtTime r).data =
        (fmtDate r.timestamp).data ++
          ',' :: ((fmtTime r.timestamp).data ++ ',' :: (toString r.value).data) := by
      simp only [rowString, strData_append, List.append_assoc]
      rfl
    rw [csvCells, hrowdata, splitSep_append_cons ',' _ _ h1,
      splitSep_append_cons ',' _ _ h3, splitSep_eq_of_not_mem ',' _ h5]
    simp [strMk_data]

/-- C9 witness: the round-trip statement applied to two concrete samples
under the demo formatters: three lines in total, and the first row splits
back into its triple. -/
theorem convertToCSV_roundtrip_witness :
    (csvLines (convertToCSV demoFmtDate demoFmtTime demoCSVData)).length =
      demoCSVData.length + 1 ∧
    csvCells (rowString demoFmtDate demoFmtTime (HRRecord.mk 72 0)) =
      [demoFmtDate 0, demoFmtTime 0, toString (72 : ℚ)] :=
  ⟨(convertToCSV_roundtrip demoFmtDate demoFmtTime demoCSVData
      (by simp [demoCSVData, mkSamples, mkSamplesFrom])
      (by
        intro r hr
        simp only [demoCSVData, mkSamples, mkSamplesFrom, List.mem_cons,
          List.not_mem_nil, or_false] at hr
        rcases hr with rfl | rfl <;>
          exact ⟨by decide, by decide, by decide, by decide, by decide, by decide⟩)).2.1,
   (convertToCSV_roundtrip demoFmtDate demoFmtTime demoCSVData
      (by simp [demoCSVData, mkSamples, mkSamplesFrom])
      (by
        intro r hr
        simp only [demoCSVData, mkSamples, mkSamplesFrom, List.mem_cons,
          List.not_mem_nil, or_false] at hr
        rcases hr with rfl | rfl <;>
          exact ⟨by decide, by decide, by decide, by decide, by decide, by decide⟩)).2.2
      (HRRecord.mk 72 0)
      (by simp [demoCSVData, mkSamples, mkSamplesFrom])⟩
